import Mathlib

/-!
Shallow embedding of src/package/src/background/main.js (a browser tab-mover
extension background script) and proofs about its coordination logic:
container-aware tab relocation, menu session staleness, reopen filtering,
window recency tracking, and click/command dispatch.
-/

set_option linter.unusedVariables false

namespace TabMover

/-- A browser tab, with the fields the background script reads.
Mirrors the host tab objects consumed by main.js. -/
structure Tab where
  id : Nat
  windowId : Int
  index : Nat
  active : Bool
  highlighted : Bool
  cookieStoreId : String
  url : String
  title : String
  incognito : Bool
deriving Repr, DecidableEq

/-- A browser window, with the fields the background script reads. -/
structure Window where
  id : Int
  incognito : Bool
  wtype : String
  title : String
  tabs : List Nat
deriving Repr, DecidableEq

/-- The read-only configuration surface consumed by moveTabs. -/
structure Settings where
  switchToTabAfterMoving : Bool
  moveableContainers : List String
deriving Repr

/-- Host mutation calls issued by the relocation engine, in issuance order. -/
inductive Effect where
  /-- browser.windows.create followed by browser.tabs.move of the rest of the
  bucket into the created window (moveToWindow, targetWindowId < 1 branch);
  the seed is the popped last tab id of the bucket (none when the bucket was
  empty, matching a pop on an empty array yielding undefined). -/
  | moveNewWindow (seedTab : Option Nat) (restTabIds : List Nat)
  /-- browser.tabs.move of a bucket into an existing window at index -1. -/
  | moveExisting (windowId : Int) (tabIds : List Nat)
  /-- browser.tabs.update with active true. -/
  | activate (tabId : Nat)
  /-- browser.tabs.update with active false and highlighted true. -/
  | deactivateHighlight (tabId : Nat)
  /-- browser.tabs.create; newTabId is the host-issued id of the created tab. -/
  | createTab (newTabId : Nat) (url : String) (windowId : Int) (active : Bool)
  /-- browser.tabs.remove of a batch of tab ids. -/
  | removeTabs (tabIds : List Nat)
deriving Repr, DecidableEq

/-- moveToWindow from main.js, as the single relocation operation it issues:
if the target window id signals "create new" (value < 1), a new window is
seeded with the popped last tab id and the remaining ids moved there;
otherwise the whole bucket is moved to the target at the tail. -/
def moveToWindow (targetWindowId : Int) (tabs : List Nat) : Effect :=
  if targetWindowId < 1 then
    .moveNewWindow tabs.getLast? tabs.dropLast
  else
    .moveExisting targetWindowId tabs

/-- The selection resolved by moveTabs and reopenTabs: the whole highlighted
group of the tab's window when the tab is highlighted, else the tab alone.
hostTabs models the host's tab table queried by browser.tabs.query. -/
def resolvedSelection (hostTabs : List Tab) (tab : Tab) : List Tab :=
  if tab.highlighted then
    hostTabs.filter (fun t => t.highlighted && t.windowId == tab.windowId)
  else [tab]

/-- One step of the reduce in moveTabs building filteredTabs: push the tab id
onto the bucket of its cookieStoreId, creating the bucket (at the end, in JS
string-keyed property insertion order) when absent. -/
def bucketStep (o : List (String × List Nat)) (t : Tab) :
    List (String × List Nat) :=
  if o.any (fun p => p.1 == t.cookieStoreId) then
    o.map (fun p => if p.1 == t.cookieStoreId then (p.1, p.2 ++ [t.id]) else p)
  else o ++ [(t.cookieStoreId, [t.id])]

/-- The reduce in moveTabs building filteredTabs: an object keyed by
cookieStoreId whose values are the lists of tab ids, keys in first-insertion
order (JS string-keyed property order). -/
def buildBuckets (selection : List Tab) : List (String × List Nat) :=
  selection.foldl bucketStep []

/-- The bucket-pruning step of moveTabs: when more than one container bucket
exists and the default bucket is among them, the firefox-default entry is
deleted from the object and its key spliced out of the key list, so only the
containered buckets are processed by this call. -/
def pruneBuckets (buckets : List (String × List Nat)) : List (String × List Nat) :=
  if buckets.length > 1 && buckets.any (fun p => p.1 == "firefox-default") then
    buckets.filter (fun p => !(p.1 == "firefox-default"))
  else buckets

/-- The per-bucket loop of moveTabs: each remaining bucket goes to a brand-new
window when its container is configured moveable, else to the target window. -/
def bucketMoves (moveableContainers : List String) (targetWindowId : Int)
    (buckets : List (String × List Nat)) : List Effect :=
  buckets.map (fun p =>
    moveToWindow (if moveableContainers.contains p.1 then 0 else targetWindowId) p.2)

/-- moveTabs from main.js as the list of host calls it issues, or none when it
throws: resolve the selection, record the active tab, bucket by container,
prune the default bucket on mixed selections, relocate each bucket, and then
(when the forced switch flag is set, or switching after moving is configured
and a truthy active tab id exists) reactivate the active tab first and mark
each other selected tab inactive-but-highlighted.  The none result models the
TypeError thrown when the branch is entered with no active tab in the
selection (reading activeTab.id of undefined). -/
def moveTabs (s : Settings) (hostTabs : List Tab) (tab : Tab)
    (targetWindowId : Int) (switchToActiveTab : Bool := false) :
    Option (List Effect) :=
  let selectedTabs := resolvedSelection hostTabs tab
  let activeTab := selectedTabs.find? (fun t => t.active)
  let moves := bucketMoves s.moveableContainers targetWindowId
    (pruneBuckets (buildBuckets selectedTabs))
  if switchToActiveTab
      || (s.switchToTabAfterMoving
          && (activeTab.map (fun a => a.id != 0)).getD false) then
    match activeTab with
    | none => none
    | some a =>
        some (moves ++ Effect.activate a.id ::
          selectedTabs.filterMap (fun t =>
            if t.id ≠ a.id then some (Effect.deactivateHighlight t.id) else none))
  else some moves

/-- The tab ids relocated by a single effect. -/
def effectMovedIds : Effect → List Nat
  | .moveNewWindow seed rest => seed.toList ++ rest
  | .moveExisting _ ids => ids
  | _ => []

/-- All tab ids relocated by an effect list (new-window seeds, new-window
rests, and moves into existing windows). -/
def movedTabIds (es : List Effect) : List Nat :=
  (es.map effectMovedIds).flatten

/-- The tab ids removed by a single effect. -/
def effectRemovedIds : Effect → List Nat
  | .removeTabs ids => ids
  | _ => []

/-- All tab ids removed by an effect list. -/
def removedTabIds (es : List Effect) : List Nat :=
  (es.map effectRemovedIds).flatten

/-- The protocol of a URL string, as new URL(url).protocol yields it: the
scheme up to the first colon, colon included. -/
def urlProtocol (url : String) : String :=
  String.mk (url.toList.takeWhile (fun c => c ≠ ':') ++ [':'])

/-- ALLOWED_PROTOCOLS from main.js. -/
def ALLOWED_PROTOCOLS : List String := ["http:", "https:", "ftp:"]

/-- The selection surviving the privileged-tab filter in reopenTabs: tabs
whose URL protocol is in the allowed set. -/
def filteredSelection (hostTabs : List Tab) (tab : Tab) : List Tab :=
  (resolvedSelection hostTabs tab).filter
    (fun t => ALLOWED_PROTOCOLS.contains (urlProtocol t.url))

/-- The surviving selection after the active-tab fallback in reopenTabs: when
no surviving tab is active, the first surviving tab has its active flag set
in place (the mutation of activeTab.active in the source). -/
def designatedSelection (sel : List Tab) : List Tab :=
  if sel.any (fun t => t.active) then sel
  else
    match sel with
    | [] => []
    | h :: rest => { h with active := true } :: rest

/-- reopenTabs from main.js as the list of host calls it issues.  createFails
models per-creation host failure keyed by the source tab id; fresh maps a
source tab id to the host-issued id of the tab created from it.  All
creations are issued concurrently (Promise.all); when any fails the await
throws and the highlight updates and the batched removal are never issued. -/
def reopenTabs (hostTabs : List Tab) (tab : Tab) (targetWindowId : Int)
    (createFails : Nat → Bool) (fresh : Nat → Nat) : List Effect :=
  let selectedTabs := filteredSelection hostTabs tab
  if selectedTabs.isEmpty then []
  else
    let survivors := designatedSelection selectedTabs
    let creates := survivors.map (fun t =>
      Effect.createTab (fresh t.id) t.url targetWindowId t.active)
    if survivors.any (fun t => createFails t.id) then creates
    else
      creates
        ++ survivors.filterMap (fun t =>
            if t.active then none
            else some (Effect.deactivateHighlight (fresh t.id)))
        ++ [Effect.removeTabs (survivors.map (fun t => t.id))]

/-! ## Context menu session manager (onMenuShown / onMenuHidden) -/

/-- The module-level menu state of main.js: the token of the most recently
started menu-shown session, the dynamically created submenu entries currently
present in the host menu (in creation order), and the entries registered as
live in windowMenuIds. -/
structure MenuState where
  lastMenuInstanceId : Nat
  visible : List Nat
  windowMenuIds : List Nat
deriving Repr, DecidableEq

/-- The menu state at script load: lastMenuInstanceId is 0 and no dynamic
entries exist. -/
def initMenuState : MenuState := ⟨0, [], []⟩

/-- Observable events of overlapping onMenuShown executions.  start t is the
synchronous session entry (menuInstanceId = nextMenuInstanceId++ followed by
lastMenuInstanceId = menuInstanceId); create t e is one successful
browser.menus.create issued by the session with token t producing host entry
id e; settle t es ok is the completion of the session's awaited Promise.all,
with es the session's successfully created entry ids and ok whether every
creation and update of the session resolved — a creation under a nonexistent
parent (such as reopen-menu) rejects, making ok false. -/
inductive MenuEvent where
  | start (token : Nat)
  | create (token : Nat) (entryId : Nat)
  | settle (token : Nat) (created : List Nat) (ok : Bool)
deriving Repr, DecidableEq

/-- One observable step of the menu session manager.  On settle, the code
after the awaited Promise.all runs only when every creation and update of the
session resolved (ok): then a session whose token is no longer
lastMenuInstanceId removes every entry it created and registers nothing,
while a current session registers its entries as live.  When the Promise.all
rejects (ok false) the await throws, so neither the staleness cleanup nor the
windowMenuIds assignment executes and the state is left as it was. -/
def menuStep (s : MenuState) : MenuEvent → MenuState
  | .start t => { s with lastMenuInstanceId := t }
  | .create _ e => { s with visible := s.visible ++ [e] }
  | .settle t es ok =>
      if ok then
        if t ≠ s.lastMenuInstanceId then
          { s with visible := s.visible.filter (fun e => !(es.contains e)) }
        else { s with windowMenuIds := es }
      else s

/-- Run a list of menu events from a state. -/
def menuRun (s : MenuState) (evs : List MenuEvent) : MenuState :=
  evs.foldl menuStep s

/-- The schedule of two overlapping sessions with tokens 1 and 2: both start
(session 2 after session 1, before session 1 settles), then the creations in
pre happen, then the first settle, then the creations in post, then the
second settle.  Creations are (token, entryId) pairs; firstIsS1 selects which
session settles first; ok1 and ok2 say whether each session's awaited
Promise.all resolved (false when any of its creations or updates rejected,
e.g. one targeting the never-created reopen-menu parent). -/
def twoSessionTrace (firstIsS1 : Bool) (pre post : List (Nat × Nat))
    (es1 es2 : List Nat) (ok1 ok2 : Bool) : List MenuEvent :=
  [MenuEvent.start 1, MenuEvent.start 2]
    ++ pre.map (fun p => MenuEvent.create p.1 p.2)
    ++ [if firstIsS1 then MenuEvent.settle 1 es1 ok1
        else MenuEvent.settle 2 es2 ok2]
    ++ post.map (fun p => MenuEvent.create p.1 p.2)
    ++ [if firstIsS1 then MenuEvent.settle 2 es2 ok2
        else MenuEvent.settle 1 es1 ok1]

/-! ## onMenuShown per-window classification -/

/-- A relocation operation bound into a dynamic menu entry's click handler. -/
inductive MenuOp where
  /-- onclick runs moveTabs with this target window id. -/
  | move (windowId : Int)
  /-- onclick runs reopenTabs with this target window id. -/
  | reopen (windowId : Int)
deriving Repr, DecidableEq

/-- A browser.menus.create request issued by onMenuShown. -/
structure MenuRequest where
  parentId : String
  op : MenuOp
  title : String
deriving Repr, DecidableEq

/-- The loop body of onMenuShown on one target window: the invoking tab's own
window is skipped; a window whose incognito mode equals the tab's yields a
move entry under move-menu, any other a reopen entry under reopen-menu. -/
def classifyWindow (tab : Tab) (w : Window) : Option MenuRequest :=
  if w.id == tab.windowId then none
  else if tab.incognito == w.incognito then
    some ⟨"move-menu", MenuOp.move w.id, w.title⟩
  else
    some ⟨"reopen-menu", MenuOp.reopen w.id, w.title⟩

/-- The full list of creation requests issued by one onMenuShown build over
the enumerated normal windows. -/
def onMenuShownRequests (tab : Tab) (targetWindows : List Window) :
    List MenuRequest :=
  targetWindows.filterMap (classifyWindow tab)

/-- The two browser.menus.update calls issued by onMenuShown: each parent is
enabled exactly when it received at least one entry. -/
def onMenuShownUpdates (tab : Tab) (targetWindows : List Window) :
    List (String × Bool) :=
  let reqs := onMenuShownRequests tab targetWindows
  [("move-menu", reqs.countP (fun r => r.parentId == "move-menu") > 0),
   ("reopen-menu", reqs.countP (fun r => r.parentId == "reopen-menu") > 0)]

/-- The target window id a menu entry's click handler is bound to. -/
def opWindowId : MenuOp → Int
  | .move w => w
  | .reopen w => w

/-- The parent menu entries created by the startup IIFE of main.js: only
move-menu is created; the creation of reopen-menu is commented out. -/
def startupMenus : List String := ["move-menu"]

/-- The creation requests of a build that succeed against the parents
existing in the host menu: browser.menus.create with a nonexistent parentId
fails with lastError, so only requests whose parent exists yield entries. -/
def createdEntries (tab : Tab) (targetWindows : List Window) : List MenuRequest :=
  (onMenuShownRequests tab targetWindows).filter
    (fun r => startupMenus.contains r.parentId)

/-! ## Window recency tracker (lastFocusedWindow) -/

/-- browser.windows.WINDOW_ID_NONE. -/
def WINDOW_ID_NONE : Int := -1

/-- Result of a tracker event: the new recency list (oldest first, JS Set
insertion order) and the argument of the updateIconBadge call when one is
issued (none when no call is issued; some none models a call whose argument
is undefined, read from an empty set). -/
structure TrackerResult where
  set : List Int
  badgeRequest : Option (Option Int)
deriving Repr, DecidableEq

/-- onFocusChanged from main.js.  host models browser.windows.get (none when
the get rejects, in which case the catch swallows the error and nothing
changes).  The none sentinel and non-normal windows leave the set unchanged;
when the id is already the last (most recent) entry nothing changes;
otherwise the current last entry is read first, updateIconBadge is called
with it, and the id is moved to the tail by delete-then-add. -/
def onFocusChanged (host : Int → Option Window) (id : Int) (s : List Int) :
    TrackerResult :=
  if id = WINDOW_ID_NONE then ⟨s, none⟩
  else
    match host id with
    | none => ⟨s, none⟩
    | some w =>
        if w.wtype ≠ "normal" then ⟨s, none⟩
        else if id > 0 then
          if s.getLast? ≠ some id then
            ⟨s.erase id ++ [id], some s.getLast?⟩
          else ⟨s, none⟩
        else ⟨s, none⟩

/-- onRemoved from main.js: updateIconBadge is called with the current head
(least-recent) entry of the set, and then the id is deleted from the set. -/
def onRemoved (id : Int) (s : List Int) : TrackerResult :=
  ⟨s.erase id, some s.head?⟩

/-- Fold a sequence of focus-changed events over the recency list. -/
def runFocusEvents (host : Int → Option Window) (ids : List Int)
    (s : List Int) : List Int :=
  ids.foldl (fun st i => (onFocusChanged host i st).set) s

/-! ## Click / command dispatch -/

/-- One moveTabs invocation as dispatched by the toolbar click handler or the
move-tabs command: the target window id (none models the null literal that
makes moveToWindow create a new window) and the forced switch flag. -/
structure MoveCall where
  targetWindowId : Option Int
  switchToActiveTab : Bool
deriving Repr, DecidableEq

/-- The second-to-last element of the recency list, as the source reads it
via spreading the set, reversing, and indexing 1. -/
def secondToLast (s : List Int) : Option Int := s.reverse.get? 1

/-- The window loop of onClicked: the invoking tab's own window is skipped
(deleting it from the recency set when it holds a single tab), and on the
first other window a single moveTabs call is issued targeting the last
active window when it is positive, else that window, then the loop breaks. -/
def clickLoop (tab : Tab) (lastActiveWindow : Option Int) (force : Bool)
    (s : List Int) : List Window → Option MoveCall × List Int
  | [] => (none, s)
  | w :: ws =>
      if w.id == tab.windowId then
        clickLoop tab lastActiveWindow force
          (if w.tabs.length == 1 then s.erase w.id else s) ws
      else
        (some ⟨some (match lastActiveWindow with
            | some v => if v > 0 then v else w.id
            | none => w.id),
          force⟩, s)

/-- onClicked from main.js: with a single enumerated normal window, moveTabs
is called with a null target (create a new window) and no forced flag;
otherwise the window loop runs with the forced flag set by a held Shift
modifier or the middle pointer button. -/
def onClicked (targetWindows : List Window) (tab : Tab) (s : List Int)
    (button : Nat) (modifiers : List String) : Option MoveCall × List Int :=
  let lastActiveWindow := secondToLast s
  if targetWindows.length == 1 then (some ⟨none, false⟩, s)
  else
    clickLoop tab lastActiveWindow
      (if modifiers.length > 0 && modifiers.contains "Shift" then true
       else if button == 1 then true else false)
      s targetWindows

/-- The move-tabs keyboard command from main.js: it calls moveTabs only when
a current tab exists and the second-to-last recency entry is positive, and
then targets that entry without forcing the switch flag; otherwise it does
nothing. -/
def commandMoveTabs (currentTab : Option Tab) (s : List Int) :
    Option MoveCall :=
  match currentTab with
  | none => none
  | some _ =>
      match secondToLast s with
      | some v => if v > 0 then some ⟨some v, false⟩ else none
      | none => none

/-! ## sortSelectedTabs -/

/-- The comparison key of the sort in sortSelectedTabs: the lowercased tab
title, compared lexicographically (JS string comparison on the lowercased
titles). -/
def titleKey (t : Tab) : List Char := t.title.toList.map Char.toLower

/-- The comparator of sortSelectedTabs as a relation: a precedes-or-ties b
when its lowercased title is not greater. -/
def titleLe (a b : Tab) : Prop := titleKey a ≤ titleKey b

instance : DecidableRel titleLe := fun a b =>
  inferInstanceAs (Decidable (titleKey a ≤ titleKey b))

instance : IsTotal Tab titleLe := ⟨fun a b => le_total (titleKey a) (titleKey b)⟩

instance : IsTrans Tab titleLe := ⟨fun _ _ _ => le_trans⟩

/-- sortSelectedTabs from main.js: a no-op (none) unless strictly more than
two tabs are highlighted; otherwise the highlighted tabs are stably sorted
by case-insensitive title and one browser.tabs.move is issued with the
sorted ids and the pre-sort index of the sorted head. -/
def sortSelectedTabs (selectedTabs : List Tab) : Option (List Nat × Nat) :=
  if selectedTabs.length > 2 then
    let sorted := selectedTabs.insertionSort titleLe
    match sorted.head? with
    | some h => some (sorted.map (fun t => t.id), h.index)
    | none => none
  else none

/-! ## Helper observers -/

/-- Whether an effect is a browser.tabs.update call setting a tab active. -/
def isActivate : Effect → Bool
  | .activate _ => true
  | _ => false

/-- Whether an effect is a browser.tabs.update call touching active or
highlighted state. -/
def isTabUpdate : Effect → Bool
  | .activate _ => true
  | .deactivateHighlight _ => true
  | _ => false

/-- Whether an effect is a browser.tabs.create call. -/
def isCreate : Effect → Bool
  | .createTab _ _ _ _ => true
  | _ => false

/-! ## Concrete inputs used by counterexamples and witnesses -/

/-- An active highlighted http tab in window 1 (reopen scenarios). -/
def reopenTab1 : Tab := ⟨1, 1, 0, true, true, "firefox-default", "http://a/", "a", false⟩

/-- An inactive highlighted https tab in window 1 (reopen scenarios). -/
def reopenTab2 : Tab := ⟨2, 1, 1, false, true, "firefox-default", "https://b/", "b", false⟩

/-- An inactive highlighted privileged (about:) tab in window 1: its protocol
is outside the allowed set. -/
def reopenTab3 : Tab := ⟨3, 1, 2, false, true, "firefox-default", "about:config", "c", false⟩

/-- The invoking tab of the menu scenarios: in window 1, not private. -/
def c3tab : Tab := ⟨5, 1, 0, true, true, "firefox-default", "http://x/", "x", false⟩

/-- Normal window 1, not private — the invoking tab's own window. -/
def c3w1 : Window := ⟨1, false, "normal", "W1", [5]⟩

/-- Normal window 2, private. -/
def c3w2 : Window := ⟨2, true, "normal", "W2", [6]⟩

/-- Normal window 3, not private. -/
def c3w3 : Window := ⟨3, false, "normal", "W3", [7]⟩

/-- The clicking tab's own window (id 5, two tabs) for dispatch scenarios. -/
def c9own : Window := ⟨5, false, "normal", "", [7, 8]⟩

/-- Another live normal window (id 7) for dispatch scenarios. -/
def c9other : Window := ⟨7, false, "normal", "", [9]⟩

/-- The active tab of window 5 used in dispatch scenarios. -/
def c9tab : Tab := ⟨7, 5, 0, true, true, "firefox-default", "http://x/", "x", false⟩

/-- Highlighted tab titled Zebra at index 4. -/
def c10tabZ : Tab := ⟨1, 1, 4, false, true, "firefox-default", "http://z/", "Zebra", false⟩

/-- Highlighted tab titled apple at index 7. -/
def c10tabA : Tab := ⟨2, 1, 7, false, true, "firefox-default", "http://a/", "apple", false⟩

/-- Highlighted tab titled Mango at index 9. -/
def c10tabM : Tab := ⟨3, 1, 9, true, true, "firefox-default", "http://m/", "Mango", false⟩

/-- A containered tab of container c-a in window 1 (highlighted). -/
def c1tabA : Tab := ⟨1, 1, 0, false, true, "c-a", "http://a/", "a", false⟩

/-- A containered tab of container c-b in window 1 (highlighted). -/
def c1tabB : Tab := ⟨2, 1, 1, false, true, "c-b", "http://b/", "b", false⟩

/-- An uncontained (firefox-default) tab in window 1 (highlighted). -/
def c1tabD : Tab := ⟨3, 1, 2, false, true, "firefox-default", "http://d/", "d", false⟩

/-- Settings configuring container c-a as moveable-to-new-window. -/
def c1settings : Settings := ⟨false, ["c-a"]⟩

/-- An active highlighted default-container tab in window 1. -/
def c6tab1 : Tab := ⟨10, 1, 0, true, true, "firefox-default", "http://a/", "a", false⟩

/-- An inactive highlighted default-container tab in window 1. -/
def c6tab2 : Tab := ⟨11, 1, 1, false, true, "firefox-default", "http://b/", "b", false⟩

/-- Settings with switch-to-tab-after-moving enabled and no moveable
containers. -/
def c6settings : Settings := ⟨true, []⟩

/-! ## General lemmas -/

theorem movedTabIds_append (es1 es2 : List Effect) :
    movedTabIds (es1 ++ es2) = movedTabIds es1 ++ movedTabIds es2 := by
  simp [movedTabIds]

theorem mem_movedTabIds {es : List Effect} {i : Nat} :
    i ∈ movedTabIds es ↔ ∃ e ∈ es, i ∈ effectMovedIds e := by
  simp [movedTabIds]

theorem mem_removedTabIds {es : List Effect} {i : Nat} :
    i ∈ removedTabIds es ↔ ∃ e ∈ es, i ∈ effectRemovedIds e := by
  simp [removedTabIds]

theorem mem_getLast?_toList_append_dropLast {α : Type} {l : List α} {i : α} :
    i ∈ l.getLast?.toList ++ l.dropLast ↔ i ∈ l := by
  induction l with
  | nil => simp
  | cons a l ih =>
      cases l with
      | nil => simp [List.getLast?]
      | cons b m =>
          simp only [List.getLast?_cons_cons, List.dropLast_cons₂,
            List.mem_append, List.mem_cons] at *
          tauto

theorem mem_effectMovedIds_moveToWindow {w : Int} {ids : List Nat} {i : Nat} :
    i ∈ effectMovedIds (moveToWindow w ids) ↔ i ∈ ids := by
  unfold moveToWindow
  split
  · exact mem_getLast?_toList_append_dropLast
  · rfl

theorem isActivate_moveToWindow (w : Int) (ids : List Nat) :
    isActivate (moveToWindow w ids) = false := by
  unfold moveToWindow
  split <;> rfl

theorem isTabUpdate_moveToWindow (w : Int) (ids : List Nat) :
    isTabUpdate (moveToWindow w ids) = false := by
  unfold moveToWindow
  split <;> rfl

theorem bucketStep_preserve {o : List (String × List Nat)} {t : Tab}
    {k : String} {i : Nat} (h : ∃ p ∈ o, p.1 = k ∧ i ∈ p.2) :
    ∃ p ∈ bucketStep o t, p.1 = k ∧ i ∈ p.2 := by
  obtain ⟨p, hp, hk, hi⟩ := h
  unfold bucketStep
  split
  · refine ⟨if p.1 == t.cookieStoreId then (p.1, p.2 ++ [t.id]) else p,
      List.mem_map_of_mem _ hp, ?_⟩
    split <;> simp_all
  · exact ⟨p, List.mem_append_left _ hp, hk, hi⟩

theorem bucketStep_self (o : List (String × List Nat)) (t : Tab) :
    ∃ p ∈ bucketStep o t, p.1 = t.cookieStoreId ∧ t.id ∈ p.2 := by
  unfold bucketStep
  split
  · next hany =>
      rw [List.any_eq_true] at hany
      obtain ⟨p, hp, hpk⟩ := hany
      rw [beq_iff_eq] at hpk
      refine ⟨(p.1, p.2 ++ [t.id]), ?_, by simp [hpk]⟩
      have : (p.1, p.2 ++ [t.id]) =
          (if p.1 == t.cookieStoreId then (p.1, p.2 ++ [t.id]) else p) := by
        simp [hpk]
      rw [this]
      exact List.mem_map_of_mem _ hp
  · exact ⟨(t.cookieStoreId, [t.id]), List.mem_append_right _ (by simp), by simp⟩

theorem bucketStep_sound {o : List (String × List Nat)} {t : Tab}
    {q : String × List Nat} (hq : q ∈ bucketStep o t) {i : Nat} (hi : i ∈ q.2) :
    (∃ p ∈ o, p.1 = q.1 ∧ i ∈ p.2) ∨ (q.1 = t.cookieStoreId ∧ i = t.id) := by
  unfold bucketStep at hq
  split at hq
  · obtain ⟨p, hp, hpq⟩ := List.mem_map.mp hq
    by_cases hk : p.1 = t.cookieStoreId
    · rw [show (if p.1 == t.cookieStoreId then (p.1, p.2 ++ [t.id]) else p) =
          (p.1, p.2 ++ [t.id]) from by simp [hk]] at hpq
      subst hpq
      simp only [List.mem_append, List.mem_singleton] at hi
      rcases hi with hi | hi
      · exact Or.inl ⟨p, hp, rfl, hi⟩
      · exact Or.inr ⟨hk, hi⟩
    · rw [show (if p.1 == t.cookieStoreId then (p.1, p.2 ++ [t.id]) else p) = p
          from by simp [beq_eq_false_iff_ne.mpr hk]] at hpq
      subst hpq
      exact Or.inl ⟨p, hp, rfl, hi⟩
  · rcases List.mem_append.mp hq with hq | hq
    · exact Or.inl ⟨q, hq, rfl, hi⟩
    · simp only [List.mem_singleton] at hq
      subst hq
      simp only [List.mem_singleton] at hi
      exact Or.inr ⟨rfl, hi⟩

theorem foldl_bucketStep_preserve {k : String} {i : Nat} :
    ∀ (l : List Tab) (o : List (String × List Nat)),
      (∃ p ∈ o, p.1 = k ∧ i ∈ p.2) →
      ∃ p ∈ l.foldl bucketStep o, p.1 = k ∧ i ∈ p.2 := by
  intro l
  induction l with
  | nil => intro o h; exact h
  | cons t l ih => intro o h; exact ih _ (bucketStep_preserve h)

theorem buildBuckets_covers_aux :
    ∀ (l : List Tab) (o : List (String × List Nat)) (t : Tab), t ∈ l →
      ∃ p ∈ l.foldl bucketStep o, p.1 = t.cookieStoreId ∧ t.id ∈ p.2 := by
  intro l
  induction l with
  | nil => intro o t h; cases h
  | cons a l ih =>
      intro o t h
      rcases List.mem_cons.mp h with h | h
      · subst h
        exact foldl_bucketStep_preserve l _ (bucketStep_self o t)
      · exact ih _ t h

/-- Every selected tab's id lands in the bucket of its container. -/
theorem buildBuckets_covers {sel : List Tab} {t : Tab} (h : t ∈ sel) :
    ∃ p ∈ buildBuckets sel, p.1 = t.cookieStoreId ∧ t.id ∈ p.2 :=
  buildBuckets_covers_aux sel [] t h

theorem buildBuckets_sound_aux {i : Nat} :
    ∀ (l : List Tab) (o : List (String × List Nat)) (q : String × List Nat),
      q ∈ l.foldl bucketStep o → i ∈ q.2 →
      (∃ p ∈ o, p.1 = q.1 ∧ i ∈ p.2) ∨
      ∃ t ∈ l, t.cookieStoreId = q.1 ∧ t.id = i := by
  intro l
  induction l with
  | nil => intro o q hq hi; exact Or.inl ⟨q, hq, rfl, hi⟩
  | cons a l ih =>
      intro o q hq hi
      rcases ih (bucketStep o a) q hq hi with h | h
      · obtain ⟨p, hp, hpk, hpi⟩ := h
        rcases bucketStep_sound hp hpi with h2 | h2
        · obtain ⟨p0, hp0, hp0k, hp0i⟩ := h2
          exact Or.inl ⟨p0, hp0, hp0k.trans hpk, hp0i⟩
        · exact Or.inr ⟨a, List.mem_cons_self a l, h2.1.symm.trans hpk, h2.2.symm⟩
      · obtain ⟨t, ht, h1, h2⟩ := h
        exact Or.inr ⟨t, List.mem_cons_of_mem a ht, h1, h2⟩

/-- Every id in a bucket comes from a selected tab of that container. -/
theorem buildBuckets_sound {sel : List Tab} {q : String × List Nat} {i : Nat}
    (hq : q ∈ buildBuckets sel) (hi : i ∈ q.2) :
    ∃ t ∈ sel, t.cookieStoreId = q.1 ∧ t.id = i := by
  rcases buildBuckets_sound_aux sel [] q hq hi with h | h
  · obtain ⟨p, hp, _⟩ := h; cases hp
  · exact h

/-- A successful moveTabs issues exactly the bucket relocations followed by a
tail of activation updates, which relocate no tab ids. -/
theorem moveTabs_some_shape {s : Settings} {hostTabs : List Tab} {tab : Tab}
    {w : Int} {flag : Bool} {es : List Effect}
    (h : moveTabs s hostTabs tab w flag = some es) :
    ∃ tail,
      es = bucketMoves s.moveableContainers w
          (pruneBuckets (buildBuckets (resolvedSelection hostTabs tab))) ++ tail
      ∧ movedTabIds tail = [] := by
  unfold moveTabs at h
  simp only [] at h
  split at h
  · cases hfind : (resolvedSelection hostTabs tab).find? (fun t => t.active) with
    | none => rw [hfind] at h; cases h
    | some a =>
        rw [hfind] at h
        injection h with h
        refine ⟨_, h.symm, ?_⟩
        simp only [movedTabIds, List.map_cons]
        rw [List.flatten_eq_nil_iff]
        intro l hl
        simp only [List.mem_cons] at hl
        rcases hl with hl | hl
        · simp [hl, effectMovedIds]
        · obtain ⟨e, he, hel⟩ := List.mem_map.mp hl
          obtain ⟨t, _, ht⟩ := List.mem_filterMap.mp he
          subst hel
          split at ht
          · injection ht with ht; subst ht; rfl
          · cases ht
  · injection h with h
    exact ⟨[], by simp [h.symm], rfl⟩

/-- Claim C1, counterexample: for the highlighted selection spanning
containers c-a (moveable), c-b and firefox-default, moveTabs relocates the
c-a bucket to a new window and the c-b bucket to the target window, but the
firefox-default tab (id 3) is moved by no issued call at all — it is not
processed last, it is dropped. -/
theorem c1_default_bucket_not_moved_cex :
    moveTabs c1settings [c1tabA, c1tabB, c1tabD] c1tabA 9 false =
      some [Effect.moveNewWindow (some 1) [], Effect.moveExisting 9 [2]]
    ∧ c1tabD ∈ resolvedSelection [c1tabA, c1tabB, c1tabD] c1tabA
    ∧ c1tabD.cookieStoreId = "firefox-default"
    ∧ c1tabD.id ∉ movedTabIds
        [Effect.moveNewWindow (some 1) [], Effect.moveExisting 9 [2]] := by
  refine ⟨by decide, by decide, rfl, by decide⟩

/-- Claim C1 (amended): for every call to moveTabs whose resolved selection
spans more than one container bucket with the default/uncontained bucket
among them, the firefox-default bucket is deleted from the processing order
and none of its tabs is moved by this call; every non-default bucket is still
relocated — a moveable-configured container's bucket to a brand-new window,
any other to the target window. -/
theorem c1_moveTabs_mixed_selection_drops_default
    (s : Settings) (hostTabs : List Tab) (tab : Tab) (targetWindowId : Int)
    (flag : Bool) (es : List Effect)
    (hrun : moveTabs s hostTabs tab targetWindowId flag = some es)
    (hlen : 1 < (buildBuckets (resolvedSelection hostTabs tab)).length)
    (hdef : (buildBuckets (resolvedSelection hostTabs tab)).any
      (fun p => p.1 == "firefox-default") = true)
    (hids : ((resolvedSelection hostTabs tab).map (fun t => t.id)).Nodup)
    (htgt : 1 ≤ targetWindowId) :
    (∀ t ∈ resolvedSelection hostTabs tab, t.cookieStoreId = "firefox-default" →
        t.id ∉ movedTabIds es)
    ∧ (∀ t ∈ resolvedSelection hostTabs tab, t.cookieStoreId ≠ "firefox-default" →
        t.id ∈ movedTabIds es)
    ∧ (∀ p ∈ pruneBuckets (buildBuckets (resolvedSelection hostTabs tab)),
        (s.moveableContainers.contains p.1 = true →
          Effect.moveNewWindow p.2.getLast? p.2.dropLast ∈ es)
        ∧ (s.moveableContainers.contains p.1 = false →
          Effect.moveExisting targetWindowId p.2 ∈ es)) := by
  obtain ⟨tail, hes, htail⟩ := moveTabs_some_shape hrun
  have hprune : pruneBuckets (buildBuckets (resolvedSelection hostTabs tab)) =
      (buildBuckets (resolvedSelection hostTabs tab)).filter
        (fun p => !(p.1 == "firefox-default")) := by
    unfold pruneBuckets
    rw [if_pos]
    simp only [Bool.and_eq_true, decide_eq_true_eq]
    exact ⟨hlen, hdef⟩
  have hmoved : movedTabIds es =
      movedTabIds (bucketMoves s.moveableContainers targetWindowId
        (pruneBuckets (buildBuckets (resolvedSelection hostTabs tab)))) := by
    rw [hes, movedTabIds_append, htail, List.append_nil]
  refine ⟨?_, ?_, ?_⟩
  · intro t ht hcs hmem
    rw [hmoved] at hmem
    obtain ⟨e, he, hie⟩ := mem_movedTabIds.mp hmem
    obtain ⟨p, hp, hpe⟩ := List.mem_map.mp he
    subst hpe
    have hid2 : t.id ∈ p.2 := mem_effectMovedIds_moveToWindow.mp hie
    rw [hprune] at hp
    obtain ⟨hpb, hpred⟩ := List.mem_filter.mp hp
    obtain ⟨t2, ht2, ht2k, ht2id⟩ := buildBuckets_sound hpb hid2
    have : t2 = t := List.inj_on_of_nodup_map hids ht2 ht ht2id
    subst this
    rw [hcs] at ht2k
    simp [ht2k.symm] at hpred
  · intro t ht hcs
    obtain ⟨p, hp, hk, hid⟩ := buildBuckets_covers ht
    have hp2 : p ∈ pruneBuckets (buildBuckets (resolvedSelection hostTabs tab)) := by
      rw [hprune]
      refine List.mem_filter.mpr ⟨hp, ?_⟩
      rw [hk]
      simp [hcs]
    rw [hmoved]
    refine mem_movedTabIds.mpr
      ⟨moveToWindow (if s.moveableContainers.contains p.1 then 0 else targetWindowId) p.2,
        List.mem_map_of_mem _ hp2, mem_effectMovedIds_moveToWindow.mpr hid⟩
  · intro p hp
    have hw : ¬ (targetWindowId < 1) := by omega
    constructor
    · intro hc
      rw [hes]
      refine List.mem_append_left _ ?_
      have : Effect.moveNewWindow p.2.getLast? p.2.dropLast =
          moveToWindow (if s.moveableContainers.contains p.1 then 0 else targetWindowId) p.2 := by
        rw [hc, if_pos rfl]
        unfold moveToWindow
        rw [if_pos (by omega)]
      rw [this]
      exact List.mem_map_of_mem _ hp
    · intro hc
      rw [hes]
      refine List.mem_append_left _ ?_
      have : Effect.moveExisting targetWindowId p.2 =
          moveToWindow (if s.moveableContainers.contains p.1 then 0 else targetWindowId) p.2 := by
        rw [hc]
        simp only [Bool.false_eq_true, if_false]
        unfold moveToWindow
        rw [if_neg hw]
      rw [this]
      exact List.mem_map_of_mem _ hp

/-- Witness for the amended claim C1: at the concrete mixed selection the
default tab id 3 is not moved while the c-b tab id 2 is, and bucket c-a goes
to a new window. -/
theorem c1_moveTabs_mixed_selection_drops_default_witness :
    c1tabD.id ∉ movedTabIds [Effect.moveNewWindow (some 1) [], Effect.moveExisting 9 [2]]
    ∧ c1tabB.id ∈ movedTabIds [Effect.moveNewWindow (some 1) [], Effect.moveExisting 9 [2]] := by
  have h := c1_moveTabs_mixed_selection_drops_default c1settings
    [c1tabA, c1tabB, c1tabD] c1tabA 9 false
    [Effect.moveNewWindow (some 1) [], Effect.moveExisting 9 [2]]
    (by decide) (by decide) (by decide) (by decide) (by decide)
  exact ⟨h.1 c1tabD (by decide) rfl, h.2.1 c1tabB (by decide) (by decide)⟩

/-- Claim C6: for every call to moveTabs whose selection contains an active
tab (with a truthy id), if the forced-switch flag is set or the
switch-after-move configuration is enabled, the call succeeds and issues
exactly one activating update — for the originally active tab — placed before
every other active/highlighted update; every other selected tab receives an
inactive-but-highlighted update after it, and no further update is issued. -/
theorem c6_moveTabs_active_preservation
    (s : Settings) (hostTabs : List Tab) (tab : Tab) (w : Int) (flag : Bool)
    (a : Tab)
    (hactive : (resolvedSelection hostTabs tab).find? (fun t => t.active) = some a)
    (hid : a.id ≠ 0)
    (hcond : flag = true ∨ s.switchToTabAfterMoving = true) :
    ∃ es, moveTabs s hostTabs tab w flag = some es
      ∧ es.countP isActivate = 1
      ∧ ∃ pre post, es = pre ++ Effect.activate a.id :: post
          ∧ (∀ e ∈ pre, isTabUpdate e = false)
          ∧ (∀ t ∈ resolvedSelection hostTabs tab, t.id ≠ a.id →
              Effect.deactivateHighlight t.id ∈ post)
          ∧ (∀ e ∈ post, ∃ t ∈ resolvedSelection hostTabs tab,
              t.id ≠ a.id ∧ e = Effect.deactivateHighlight t.id) := by
  have hbool : (flag
      || (s.switchToTabAfterMoving
          && (((resolvedSelection hostTabs tab).find? (fun t => t.active)).map
            (fun a => a.id != 0)).getD false)) = true := by
    rw [hactive]
    rcases hcond with h | h
    · simp [h]
    · simp [h, hid]
  refine ⟨bucketMoves s.moveableContainers w
      (pruneBuckets (buildBuckets (resolvedSelection hostTabs tab)))
    ++ Effect.activate a.id ::
      (resolvedSelection hostTabs tab).filterMap (fun t =>
        if t.id ≠ a.id then some (Effect.deactivateHighlight t.id) else none),
    ?_, ?_, ?_⟩
  · unfold moveTabs
    simp only []
    rw [if_pos hbool, hactive]
  · rw [List.countP_append, List.countP_cons]
    have h1 : (bucketMoves s.moveableContainers w
        (pruneBuckets (buildBuckets (resolvedSelection hostTabs tab)))).countP
          isActivate = 0 := by
      rw [List.countP_eq_zero]
      intro e he
      obtain ⟨p, _, hpe⟩ := List.mem_map.mp he
      subst hpe
      simp [isActivate_moveToWindow]
    have h2 : ((resolvedSelection hostTabs tab).filterMap (fun t =>
        if t.id ≠ a.id then some (Effect.deactivateHighlight t.id)
        else none)).countP isActivate = 0 := by
      rw [List.countP_eq_zero]
      intro e he
      obtain ⟨t, _, ht⟩ := List.mem_filterMap.mp he
      split at ht
      · injection ht with ht; subst ht; simp [isActivate]
      · cases ht
    rw [h1, h2]
    rfl
  · refine ⟨_, _, rfl, ?_, ?_, ?_⟩
    · intro e he
      obtain ⟨p, _, hpe⟩ := List.mem_map.mp he
      subst hpe
      exact isTabUpdate_moveToWindow _ _
    · intro t ht hne
      exact List.mem_filterMap.mpr ⟨t, ht, by rw [if_pos hne]⟩
    · intro e he
      obtain ⟨t, ht, hte⟩ := List.mem_filterMap.mp he
      split at hte
      · next hne => injection hte with hte; exact ⟨t, ht, hne, hte.symm⟩
      · cases hte

/-- Witness for claim C6: on a two-tab highlighted selection with tab 10
active and switch-after-move enabled, moveTabs activates tab 10 and marks
tab 11 inactive-but-highlighted. -/
theorem c6_moveTabs_active_preservation_witness :
    Effect.activate 10 ∈ (moveTabs c6settings [c6tab1, c6tab2] c6tab1 9 false).getD []
    ∧ Effect.deactivateHighlight 11 ∈
        (moveTabs c6settings [c6tab1, c6tab2] c6tab1 9 false).getD [] := by
  obtain ⟨es, hes, hone, pre, post, hsplit, hpre, hpost, honly⟩ :=
    c6_moveTabs_active_preservation c6settings [c6tab1, c6tab2] c6tab1 9 false
      c6tab1 (by decide) (by decide) (Or.inr rfl)
  rw [hes]
  constructor
  · rw [hsplit]
    simp only [Option.getD_some, List.mem_append, List.mem_cons]
    exact Or.inr (Or.inl rfl)
  · rw [hsplit]
    simp only [Option.getD_some, List.mem_append, List.mem_cons]
    exact Or.inr (Or.inr (hpost c6tab2 (by decide) (by decide)))

theorem designatedSelection_map_id (sel : List Tab) :
    (designatedSelection sel).map (fun t => t.id) = sel.map (fun t => t.id) := by
  unfold designatedSelection
  split
  · rfl
  · cases sel <;> rfl

theorem designatedSelection_length (sel : List Tab) :
    (designatedSelection sel).length = sel.length := by
  unfold designatedSelection
  split
  · rfl
  · cases sel <;> rfl

/-- Claim C4: for every call to reopenTabs, if any of the concurrently issued
tab creations fails, the batched removal of the original source tabs is never
issued — no Effect.removeTabs call appears in the trace, so the originals
survive a failed reopen. -/
theorem c4_reopenTabs_failed_create_blocks_removal
    (hostTabs : List Tab) (tab : Tab) (w : Int)
    (createFails : Nat → Bool) (fresh : Nat → Nat)
    (hfail : (designatedSelection (filteredSelection hostTabs tab)).any
      (fun t => createFails t.id) = true) :
    ∀ ids, Effect.removeTabs ids ∉ reopenTabs hostTabs tab w createFails fresh := by
  intro ids hmem
  unfold reopenTabs at hmem
  simp only [hfail, if_true] at hmem
  split at hmem
  · cases hmem
  · obtain ⟨t, _, ht⟩ := List.mem_map.mp hmem
    cases ht

/-- Witness for claim C4: with the creation for source tab 2 failing, the
removal of the surviving originals [1, 2] is never issued. -/
theorem c4_reopenTabs_failed_create_blocks_removal_witness :
    (designatedSelection (filteredSelection [reopenTab1, reopenTab2, reopenTab3]
        reopenTab1)).any (fun t => t.id == 2) = true
    ∧ Effect.removeTabs [1, 2] ∉
        reopenTabs [reopenTab1, reopenTab2, reopenTab3] reopenTab1 9
          (fun i => i == 2) (fun i => i + 100) :=
  ⟨by decide,
    c4_reopenTabs_failed_create_blocks_removal [reopenTab1, reopenTab2, reopenTab3]
      reopenTab1 9 (fun i => i == 2) (fun i => i + 100) (by decide) [1, 2]⟩

/-- Claim C5, counterexample: with a highlighted selection of three tabs of
which tab 3 has a non-allowed (about:) URL, reopening removes only the two
surviving originals; tab 3 stays — not all original selected tabs are
removed, contradicting the claim (and the spec's "0 remaining original
tabs"). -/
theorem c5_filtered_originals_not_removed_cex :
    reopenTab3 ∈ resolvedSelection [reopenTab1, reopenTab2, reopenTab3] reopenTab1
    ∧ removedTabIds (reopenTabs [reopenTab1, reopenTab2, reopenTab3] reopenTab1 9
        (fun _ => false) (fun i => i + 100)) = [1, 2]
    ∧ reopenTab3.id ∉ removedTabIds
        (reopenTabs [reopenTab1, reopenTab2, reopenTab3] reopenTab1 9
          (fun _ => false) (fun i => i + 100)) := by
  refine ⟨by decide, by decide, by decide⟩

/-- Claim C5 (amended): for every call to reopenTabs, tabs whose URL scheme is
outside the allowed set are filtered out of the resolved selection; if the
filtered selection is empty the call issues no host mutation; otherwise, when
no creation fails: if the originally active tab was filtered out the first
surviving tab is created active; exactly one new tab per surviving tab is
created in the target window inheriting its URL and active flag; and the
batched removal removes exactly the surviving originals — a filtered-out tab
is never removed. -/
theorem c5_reopenTabs_filtering
    (hostTabs : List Tab) (tab : Tab) (w : Int)
    (createFails : Nat → Bool) (fresh : Nat → Nat)
    (hids : ((resolvedSelection hostTabs tab).map (fun t => t.id)).Nodup)
    (hnofail : (designatedSelection (filteredSelection hostTabs tab)).any
      (fun t => createFails t.id) = false) :
    (filteredSelection hostTabs tab = [] →
      reopenTabs hostTabs tab w createFails fresh = [])
    ∧ (filteredSelection hostTabs tab ≠ [] →
        (∀ t ∈ designatedSelection (filteredSelection hostTabs tab),
          Effect.createTab (fresh t.id) t.url w t.active ∈
            reopenTabs hostTabs tab w createFails fresh)
        ∧ (reopenTabs hostTabs tab w createFails fresh).countP isCreate =
            (filteredSelection hostTabs tab).length
        ∧ Effect.removeTabs ((filteredSelection hostTabs tab).map (fun t => t.id)) ∈
            reopenTabs hostTabs tab w createFails fresh
        ∧ removedTabIds (reopenTabs hostTabs tab w createFails fresh) =
            (filteredSelection hostTabs tab).map (fun t => t.id)
        ∧ (∀ t ∈ resolvedSelection hostTabs tab,
            ALLOWED_PROTOCOLS.contains (urlProtocol t.url) = false →
            t.id ∉ removedTabIds (reopenTabs hostTabs tab w createFails fresh))
        ∧ ((filteredSelection hostTabs tab).any (fun t => t.active) = false →
            ∃ h rest, filteredSelection hostTabs tab = h :: rest ∧
              Effect.createTab (fresh h.id) h.url w true ∈
                reopenTabs hostTabs tab w createFails fresh)) := by
  have htrace : filteredSelection hostTabs tab ≠ [] →
      reopenTabs hostTabs tab w createFails fresh =
        (designatedSelection (filteredSelection hostTabs tab)).map (fun t =>
            Effect.createTab (fresh t.id) t.url w t.active)
          ++ (designatedSelection (filteredSelection hostTabs tab)).filterMap (fun t =>
              if t.active then none
              else some (Effect.deactivateHighlight (fresh t.id)))
          ++ [Effect.removeTabs ((designatedSelection
              (filteredSelection hostTabs tab)).map (fun t => t.id))] := by
    intro hne
    unfold reopenTabs
    simp only []
    rw [if_neg (by simpa [List.isEmpty_iff] using hne), if_neg (by simp [hnofail])]
  constructor
  · intro hempty
    unfold reopenTabs
    simp only []
    rw [if_pos (by simp [hempty])]
  · intro hne
    rw [htrace hne]
    refine ⟨?_, ?_, ?_, ?_, ?_, ?_⟩
    · intro t ht
      exact List.mem_append_left _ (List.mem_append_left _
        (List.mem_map_of_mem _ ht))
    · rw [List.countP_append, List.countP_append]
      have h1 : ((designatedSelection (filteredSelection hostTabs tab)).map (fun t =>
          Effect.createTab (fresh t.id) t.url w t.active)).countP isCreate =
          (filteredSelection hostTabs tab).length := by
        rw [List.countP_eq_length.mpr, List.length_map, designatedSelection_length]
        intro e he
        obtain ⟨t, _, ht⟩ := List.mem_map.mp he
        subst ht
        rfl
      have h2 : ((designatedSelection (filteredSelection hostTabs tab)).filterMap
          (fun t => if t.active then none
            else some (Effect.deactivateHighlight (fresh t.id)))).countP isCreate = 0 := by
        rw [List.countP_eq_zero]
        intro e he
        obtain ⟨t, _, ht⟩ := List.mem_filterMap.mp he
        split at ht
        · cases ht
        · injection ht with ht; subst ht; simp [isCreate]
      rw [h1, h2]
      rfl
    · rw [designatedSelection_map_id]
      exact List.mem_append_right _ (by simp)
    · rw [removedTabIds, List.map_append, List.map_append, List.flatten_append,
        List.flatten_append, designatedSelection_map_id]
      have h1 : ∀ (l : List Tab) (f : Tab → Effect),
          (∀ t, effectRemovedIds (f t) = []) →
          ((l.map f).map effectRemovedIds).flatten = [] := by
        intro l f hf
        rw [List.flatten_eq_nil_iff]
        intro m hm
        obtain ⟨e, he, hme⟩ := List.mem_map.mp hm
        obtain ⟨t, _, ht⟩ := List.mem_map.mp he
        subst ht hme
        exact hf t
      rw [h1 _ (fun t => Effect.createTab (fresh t.id) t.url w t.active)
        (fun t => rfl)]
      have h2 : (((designatedSelection (filteredSelection hostTabs tab)).filterMap
          (fun t => if t.active then none
            else some (Effect.deactivateHighlight (fresh t.id)))).map
              effectRemovedIds).flatten = [] := by
        rw [List.flatten_eq_nil_iff]
        intro m hm
        obtain ⟨e, he, hme⟩ := List.mem_map.mp hm
        obtain ⟨t, _, ht⟩ := List.mem_filterMap.mp he
        split at ht
        · cases ht
        · injection ht with ht; subst ht hme; rfl
      rw [h2]
      simp [effectRemovedIds]
    · intro t ht hproto hmem
      rw [removedTabIds, List.map_append, List.flatten_append] at hmem
      rcases List.mem_append.mp hmem with hmem | hmem
      · rw [List.map_append, List.flatten_append] at hmem
        rcases List.mem_append.mp hmem with hmem | hmem
        · obtain ⟨m, hm, htm⟩ := List.mem_flatten.mp hmem
          obtain ⟨e, he, hme⟩ := List.mem_map.mp hm
          obtain ⟨t2, _, ht2⟩ := List.mem_map.mp he
          subst ht2 hme
          cases htm
        · obtain ⟨m, hm, htm⟩ := List.mem_flatten.mp hmem
          obtain ⟨e, he, hme⟩ := List.mem_map.mp hm
          obtain ⟨t2, _, ht2⟩ := List.mem_filterMap.mp he
          split at ht2
          · cases ht2
          · injection ht2 with ht2; subst ht2 hme; cases htm
      · simp only [List.map_cons, List.map_nil, List.flatten_cons,
          List.flatten_nil, List.append_nil] at hmem
        rw [designatedSelection_map_id] at hmem
        simp only [effectRemovedIds] at hmem
        obtain ⟨t2, ht2, ht2id⟩ := List.mem_map.mp hmem
        have ht2sel : t2 ∈ resolvedSelection hostTabs tab :=
          List.mem_of_mem_filter ht2
        have : t2 = t := List.inj_on_of_nodup_map hids ht2sel ht ht2id
        subst this
        have := (List.mem_filter.mp ht2).2
        rw [hproto] at this
        cases this
    · intro hnoact
      cases hsel : filteredSelection hostTabs tab with
      | nil => exact absurd hsel hne
      | cons h rest =>
          refine ⟨h, rest, rfl, ?_⟩
          refine List.mem_append_left _ (List.mem_append_left _ ?_)
          rw [hsel] at hnoact
          have hdes : designatedSelection (h :: rest) =
              { h with active := true } :: rest := by
            unfold designatedSelection
            rw [if_neg (by simp [hnoact])]
          rw [hdes]
          exact List.mem_cons_self _ _

/-- Witness for the amended claim C5: on the three-tab selection with tab 3
privileged, two creations (inheriting URL and active flag) and the removal of
exactly [1, 2] are issued, and tab 3's id is not removed. -/
theorem c5_reopenTabs_filtering_witness :
    Effect.createTab 101 "http://a/" 9 true ∈
      reopenTabs [reopenTab1, reopenTab2, reopenTab3] reopenTab1 9
        (fun _ => false) (fun i => i + 100)
    ∧ Effect.removeTabs [1, 2] ∈
        reopenTabs [reopenTab1, reopenTab2, reopenTab3] reopenTab1 9
          (fun _ => false) (fun i => i + 100)
    ∧ reopenTab3.id ∉ removedTabIds
        (reopenTabs [reopenTab1, reopenTab2, reopenTab3] reopenTab1 9
          (fun _ => false) (fun i => i + 100)) := by
  obtain ⟨hempty, hrest⟩ := c5_reopenTabs_filtering
    [reopenTab1, reopenTab2, reopenTab3] reopenTab1 9
    (fun _ => false) (fun i => i + 100) (by decide) (by decide)
  obtain ⟨hcreate, hcount, hremove, hrem2, hnotrem, hact⟩ := hrest (by decide)
  exact ⟨hcreate reopenTab1 (by decide), by simpa using hremove,
    hnotrem reopenTab3 (by decide) (by decide)⟩

theorem menuRun_append (s : MenuState) (evs1 evs2 : List MenuEvent) :
    menuRun s (evs1 ++ evs2) = menuRun (menuRun s evs1) evs2 :=
  List.foldl_append _ _ _ _

theorem menuRun_creates (l : List (Nat × Nat)) :
    ∀ s : MenuState, menuRun s (l.map (fun p => MenuEvent.create p.1 p.2)) =
      { s with visible := s.visible ++ l.map (fun p => p.2) } := by
  induction l with
  | nil => intro s; simp [menuRun]
  | cons p l ih =>
      intro s
      simp only [List.map_cons, menuRun, List.foldl_cons]
      have : menuStep s (MenuEvent.create p.1 p.2) =
          { s with visible := s.visible ++ [p.2] } := rfl
      rw [this]
      have h2 := ih { s with visible := s.visible ++ [p.2] }
      simp only [menuRun] at h2
      rw [h2]
      simp

theorem filter_not_contains_eq_token2 (es1 : List Nat) :
    ∀ (l : List (Nat × Nat)),
      (∀ p ∈ l, p.1 = 1 → p.2 ∈ es1) →
      (∀ p ∈ l, p.1 = 2 → p.2 ∉ es1) →
      (∀ p ∈ l, p.1 = 1 ∨ p.1 = 2) →
      (l.map (fun p => p.2)).filter (fun e => !(es1.contains e)) =
        (l.filter (fun p => p.1 == 2)).map (fun p => p.2) := by
  intro l
  induction l with
  | nil => intro _ _ _; rfl
  | cons p l ih =>
      intro hin hout htok
      have hrest := ih (fun q hq => hin q (List.mem_cons_of_mem p hq))
        (fun q hq => hout q (List.mem_cons_of_mem p hq))
        (fun q hq => htok q (List.mem_cons_of_mem p hq))
      simp only [List.map_cons, List.filter_cons]
      rcases htok p (List.mem_cons_self p l) with h1 | h2
      · have hmem : p.2 ∈ es1 := hin p (List.mem_cons_self p l) h1
        have hcont : es1.contains p.2 = true := List.elem_iff.mpr hmem
        rw [hcont]
        have : (p.1 == 2) = false := by simp [h1]
        rw [this]
        simpa using hrest
      · have hmem : p.2 ∉ es1 := hout p (List.mem_cons_self p l) h2
        have hcont : es1.contains p.2 = false := by
          cases hc : es1.contains p.2
          · rfl
          · exact absurd (List.elem_iff.mp hc) hmem
        rw [hcont]
        have : (p.1 == 2) = true := by simp [h2]
        rw [this]
        simpa using hrest

/-- Claim C2, counterexample: a menu build on the non-private tab of window 1
with the private normal window 2 open issues a creation under the reopen-menu
parent, which is never created at startup, so the creation rejects and the
session's awaited Promise.all rejects with it (ok = false).  For two such
overlapping sessions — S1 creating entry 10, S2 creating entry 20, both
settling with a rejected Promise.all — S1's entry 10 stays visible and
nothing is registered: the staleness cleanup never runs, so the final visible
entries are not exactly S2's and S1 contributes a visible entry. -/
theorem c2_stale_entries_leak_cex :
    (⟨"reopen-menu", MenuOp.reopen 2, "W2"⟩ : MenuRequest) ∈
      onMenuShownRequests c3tab [c3w1, c3w2, c3w3]
    ∧ "reopen-menu" ∉ startupMenus
    ∧ menuRun initMenuState
        (twoSessionTrace true [(1, 10), (2, 20)] [] [10] [20] false false) =
      ⟨2, [10, 20], []⟩
    ∧ (10 : Nat) ∈ (menuRun initMenuState
        (twoSessionTrace true [(1, 10), (2, 20)] [] [10] [20] false false)).visible := by
  refine ⟨by decide, by decide, by decide, by decide⟩

/-- Claim C2 (amended): for two overlapping menu-shown sessions S1 (token 1,
older) and S2 (token 2, newer), when every creation and update of both
sessions resolves, then whatever the interleaving of their entry creations
and whichever session settles first, after both settle the visible dynamic
entries are exactly S2's created entries and the live registration
(windowMenuIds) is exactly S2's entries — S1 removes everything it created
and registers nothing.  But when S1's awaited Promise.all rejects (as it does
whenever its build contains a privacy-mismatched window, whose reopen-parent
creation fails), the staleness cleanup never runs: every created entry of
both sessions remains visible, S1's included. -/
theorem c2_menu_session_atomicity_guarded
    (firstIsS1 : Bool) (pre post : List (Nat × Nat)) (es1 es2 : List Nat)
    (h1 : es1 = ((pre ++ post).filter (fun p => p.1 == 1)).map (fun p => p.2))
    (h2 : es2 = ((pre ++ post).filter (fun p => p.1 == 2)).map (fun p => p.2))
    (htok : ∀ p ∈ pre ++ post, p.1 = 1 ∨ p.1 = 2)
    (hdisj : ∀ p ∈ pre ++ post, p.1 = 2 → p.2 ∉ es1)
    (hpost : ∀ p ∈ post, p.1 = (if firstIsS1 then 2 else 1)) :
    ((menuRun initMenuState
        (twoSessionTrace firstIsS1 pre post es1 es2 true true)).visible = es2
      ∧ (menuRun initMenuState
          (twoSessionTrace firstIsS1 pre post es1 es2 true true)).windowMenuIds = es2)
    ∧ (∀ ok2 : Bool, (menuRun initMenuState
        (twoSessionTrace firstIsS1 pre post es1 es2 false ok2)).visible =
          (pre ++ post).map (fun p => p.2)) := by
  have hin : ∀ p ∈ pre ++ post, p.1 = 1 → p.2 ∈ es1 := by
    intro p hp hp1
    rw [h1]
    exact List.mem_map_of_mem _ (List.mem_filter.mpr ⟨hp, by simp [hp1]⟩)
  have hstart : menuRun initMenuState [MenuEvent.start 1, MenuEvent.start 2] =
      ⟨2, [], []⟩ := rfl
  have hsettleStale : ∀ v wm : List Nat,
      menuRun ⟨2, v, wm⟩ [MenuEvent.settle 1 es1 true] =
        ⟨2, v.filter (fun e => !(es1.contains e)), wm⟩ := by
    intro v wm
    simp [menuRun, menuStep]
  have hsettleFresh : ∀ v wm : List Nat,
      menuRun ⟨2, v, wm⟩ [MenuEvent.settle 2 es2 true] = ⟨2, v, es2⟩ := by
    intro v wm
    simp [menuRun, menuStep]
  have hsettleFail : ∀ v wm : List Nat,
      menuRun ⟨2, v, wm⟩ [MenuEvent.settle 1 es1 false] = ⟨2, v, wm⟩ := by
    intro v wm
    simp [menuRun, menuStep]
  have hsettle2 : ∀ (v wm : List Nat) (ok : Bool),
      menuRun ⟨2, v, wm⟩ [MenuEvent.settle 2 es2 ok] =
        ⟨2, v, if ok then es2 else wm⟩ := by
    intro v wm ok
    cases ok <;> simp [menuRun, menuStep]
  have hcreates : ∀ (l : List (Nat × Nat)) (v wm : List Nat),
      menuRun ⟨2, v, wm⟩ (l.map (fun p => MenuEvent.create p.1 p.2)) =
        ⟨2, v ++ l.map (fun p => p.2), wm⟩ := by
    intro l v wm
    rw [menuRun_creates l]
  constructor
  · unfold twoSessionTrace
    cases firstIsS1 with
    | true =>
        have hpost2 : ∀ p ∈ post, p.1 = 2 := by simpa using hpost
        have hpre : (pre.map (fun p => p.2)).filter (fun e => !(es1.contains e)) =
            (pre.filter (fun p => p.1 == 2)).map (fun p => p.2) :=
          filter_not_contains_eq_token2 es1 pre
            (fun q hq => hin q (List.mem_append_left _ hq))
            (fun q hq => hdisj q (List.mem_append_left _ hq))
            (fun q hq => htok q (List.mem_append_left _ hq))
        simp only [if_true]
        rw [menuRun_append, menuRun_append, menuRun_append, menuRun_append,
          hstart, hcreates, hsettleStale, hcreates, hsettleFresh]
        refine ⟨?_, rfl⟩
        show (pre.map (fun p => p.2)).filter (fun e => !(es1.contains e))
            ++ post.map (fun p => p.2) = es2
        rw [hpre, h2, List.filter_append, List.map_append]
        congr 1
        rw [List.filter_eq_self.mpr (fun p hp => by simp [hpost2 p hp])]
    | false =>
        have hpost1 : ∀ p ∈ post, p.1 = 1 := by simpa using hpost
        rw [show (if (false : Bool) = true then MenuEvent.settle 1 es1 true
              else MenuEvent.settle 2 es2 true) = MenuEvent.settle 2 es2 true
            from rfl,
          show (if (false : Bool) = true then MenuEvent.settle 2 es2 true
              else MenuEvent.settle 1 es1 true) = MenuEvent.settle 1 es1 true
            from rfl]
        rw [menuRun_append, menuRun_append, menuRun_append, menuRun_append,
          hstart, hcreates, hsettleFresh, hcreates, hsettleStale]
        refine ⟨?_, rfl⟩
        show ((pre.map (fun p => p.2) ++ post.map (fun p => p.2)).filter
          (fun e => !(es1.contains e))) = es2
        rw [← List.map_append, filter_not_contains_eq_token2 es1 (pre ++ post)
          hin hdisj htok, h2]
  · intro ok2
    unfold twoSessionTrace
    cases firstIsS1 with
    | true =>
        simp only [if_true]
        rw [menuRun_append, menuRun_append, menuRun_append, menuRun_append,
          hstart, hcreates, hsettleFail, hcreates, hsettle2]
        show pre.map (fun p => p.2) ++ post.map (fun p => p.2) =
          (pre ++ post).map (fun p => p.2)
        rw [List.map_append]
    | false =>
        rw [show (if (false : Bool) = true then MenuEvent.settle 1 es1 false
              else MenuEvent.settle 2 es2 ok2) = MenuEvent.settle 2 es2 ok2
            from rfl,
          show (if (false : Bool) = true then MenuEvent.settle 2 es2 ok2
              else MenuEvent.settle 1 es1 false) = MenuEvent.settle 1 es1 false
            from rfl]
        rw [menuRun_append, menuRun_append, menuRun_append, menuRun_append,
          hstart, hcreates, hsettle2, hcreates, hsettleFail]
        show pre.map (fun p => p.2) ++ post.map (fun p => p.2) =
          (pre ++ post).map (fun p => p.2)
        rw [List.map_append]

/-- Witness for the amended claim C2: with both sessions' builds resolving,
S1 creates 10 (before S2's 20), S2 also creates 21 and the final visible
entries and registration are exactly S2's [20, 21]; with S1's build rejecting
instead, S1's entry 10 stays visible alongside S2's entries. -/
theorem c2_menu_session_atomicity_guarded_witness :
    (menuRun initMenuState
      (twoSessionTrace true [(1, 10), (2, 20)] [(2, 21)] [10] [20, 21]
        true true)).visible = [20, 21]
    ∧ (menuRun initMenuState
        (twoSessionTrace true [(1, 10), (2, 20)] [(2, 21)] [10] [20, 21]
          true true)).windowMenuIds = [20, 21]
    ∧ (menuRun initMenuState
        (twoSessionTrace true [(1, 10), (2, 20)] [(2, 21)] [10] [20, 21]
          false true)).visible = [10, 20, 21] := by
  obtain ⟨⟨hv, hw⟩, hfail⟩ :=
    c2_menu_session_atomicity_guarded true [(1, 10), (2, 20)] [(2, 21)]
      [10] [20, 21] (by decide) (by decide) (by decide) (by decide) (by decide)
  refine ⟨hv, hw, ?_⟩
  rw [hfail true]
  rfl

theorem classifyWindow_own {tab : Tab} {w : Window} (h : w.id = tab.windowId) :
    classifyWindow tab w = none := by
  unfold classifyWindow
  rw [if_pos (by simp [h])]

theorem classifyWindow_match {tab : Tab} {w : Window}
    (hne : w.id ≠ tab.windowId) (hinc : tab.incognito = w.incognito) :
    classifyWindow tab w = some ⟨"move-menu", MenuOp.move w.id, w.title⟩ := by
  unfold classifyWindow
  rw [if_neg (by simp [hne]), if_pos (by simp [hinc])]

theorem classifyWindow_mismatch {tab : Tab} {w : Window}
    (hne : w.id ≠ tab.windowId) (hinc : tab.incognito ≠ w.incognito) :
    classifyWindow tab w = some ⟨"reopen-menu", MenuOp.reopen w.id, w.title⟩ := by
  unfold classifyWindow
  rw [if_neg (by simp [hne]), if_neg (by simp [hinc])]

theorem classifyWindow_sound {tab : Tab} {w : Window} {r : MenuRequest}
    (h : classifyWindow tab w = some r) :
    opWindowId r.op = w.id ∧ w.id ≠ tab.windowId ∧ r.title = w.title ∧
      ((r.parentId = "move-menu" ∧ r.op = MenuOp.move w.id
          ∧ tab.incognito = w.incognito)
        ∨ (r.parentId = "reopen-menu" ∧ r.op = MenuOp.reopen w.id
          ∧ tab.incognito ≠ w.incognito)) := by
  unfold classifyWindow at h
  split at h
  · cases h
  · next hown =>
      have hne : w.id ≠ tab.windowId := by
        intro he
        exact hown (by simp [he])
      split at h
      · next hinc =>
          injection h with h
          subst h
          exact ⟨rfl, hne, rfl, Or.inl ⟨rfl, rfl, by simpa using hinc⟩⟩
      · next hinc =>
          injection h with h
          subst h
          refine ⟨rfl, hne, rfl, Or.inr ⟨rfl, rfl, ?_⟩⟩
          intro he
          exact hinc (by simp [he])

theorem onMenuShownRequests_op_mem {tab : Tab} :
    ∀ {ws : List Window} {r : MenuRequest}, r ∈ onMenuShownRequests tab ws →
      opWindowId r.op ∈ ws.map (fun u => u.id) := by
  intro ws r hr
  obtain ⟨w, hw, hwr⟩ := List.mem_filterMap.mp hr
  rw [(classifyWindow_sound hwr).1]
  exact List.mem_map_of_mem _ hw

theorem onMenuShownRequests_countP_eq_one (tab : Tab) :
    ∀ (ws : List Window) (w : Window), w ∈ ws → w.id ≠ tab.windowId →
      (ws.map (fun u => u.id)).Nodup →
      (onMenuShownRequests tab ws).countP
        (fun r => opWindowId r.op == w.id) = 1 := by
  intro ws
  induction ws with
  | nil => intro w hw; cases hw
  | cons u ws ih =>
      intro w hw hne hnodup
      have hcons : u.id ∉ ws.map (fun v => v.id) ∧
          (ws.map (fun v => v.id)).Nodup := by
        rw [List.map_cons, List.nodup_cons] at hnodup
        exact hnodup
      have hnodup2 := hcons.2
      have hufresh := hcons.1
      have hzero : ∀ v : Int, v ∉ ws.map (fun x => x.id) →
          (onMenuShownRequests tab ws).countP
            (fun r => opWindowId r.op == v) = 0 := by
        intro v hv
        rw [List.countP_eq_zero]
        intro r hr hb
        exact hv ((beq_iff_eq.mp hb) ▸ onMenuShownRequests_op_mem hr)
      rcases List.mem_cons.mp hw with hw | hw
      · subst hw
        by_cases hinc : tab.incognito = w.incognito
        · rw [show onMenuShownRequests tab (w :: ws) =
              (⟨"move-menu", MenuOp.move w.id, w.title⟩ : MenuRequest) ::
                onMenuShownRequests tab ws from by
            unfold onMenuShownRequests
            rw [List.filterMap_cons, classifyWindow_match hne hinc]]
          rw [List.countP_cons, hzero w.id hufresh]
          simp [opWindowId]
        · rw [show onMenuShownRequests tab (w :: ws) =
              (⟨"reopen-menu", MenuOp.reopen w.id, w.title⟩ : MenuRequest) ::
                onMenuShownRequests tab ws from by
            unfold onMenuShownRequests
            rw [List.filterMap_cons, classifyWindow_mismatch hne hinc]]
          rw [List.countP_cons, hzero w.id hufresh]
          simp [opWindowId]
      · have hwid : w.id ∈ ws.map (fun v => v.id) := List.mem_map_of_mem _ hw
        have huw : u.id ≠ w.id := fun he => hufresh (he ▸ hwid)
        by_cases hu : u.id = tab.windowId
        · rw [show onMenuShownRequests tab (u :: ws) =
              onMenuShownRequests tab ws from by
            unfold onMenuShownRequests
            rw [List.filterMap_cons, classifyWindow_own hu]]
          exact ih w hw hne hnodup2
        · by_cases hinc : tab.incognito = u.incognito
          · rw [show onMenuShownRequests tab (u :: ws) =
                (⟨"move-menu", MenuOp.move u.id, u.title⟩ : MenuRequest) ::
                  onMenuShownRequests tab ws from by
              unfold onMenuShownRequests
              rw [List.filterMap_cons, classifyWindow_match hu hinc]]
            rw [List.countP_cons, ih w hw hne hnodup2]
            simp [opWindowId, huw]
          · rw [show onMenuShownRequests tab (u :: ws) =
                (⟨"reopen-menu", MenuOp.reopen u.id, u.title⟩ : MenuRequest) ::
                  onMenuShownRequests tab ws from by
              unfold onMenuShownRequests
              rw [List.filterMap_cons, classifyWindow_mismatch hu hinc]]
            rw [List.countP_cons, ih w hw hne hnodup2]
            simp [opWindowId, huw]

/-- Claim C3, counterexample: invoking the menu on a non-private tab of
window 1 while the private normal window 2 is open, the only creation request
for window 2 targets the parent id reopen-menu — but the startup code creates
only move-menu (the reopen parent's creation is commented out), so no entry
can be created for window 2: the claim's "exactly one dynamic submenu entry
is created under the reopen parent" fails. -/
theorem c3_reopen_parent_missing_cex :
    onMenuShownRequests c3tab [c3w1, c3w2] =
      [⟨"reopen-menu", MenuOp.reopen 2, "W2"⟩]
    ∧ "reopen-menu" ∉ startupMenus
    ∧ createdEntries c3tab [c3w1, c3w2] = []
    ∧ c3w2.wtype = "normal"
    ∧ c3w2.id ≠ c3tab.windowId := by
  refine ⟨by decide, by decide, by decide, rfl, by decide⟩

/-- Claim C3 (amended): for every menu-shown build, each live normal window
other than the invoking tab's own window receives exactly one creation
request, bound to that window id — under the move parent when its privacy
mode equals the tab's and under the reopen parent otherwise — the own window
receives none, and each of the two parent entries is updated enabled iff it
received at least one request; but only the move parent is ever created at
startup (the reopen parent's creation is commented out), so reopen-targeted
requests reference a nonexistent parent and no entry materializes for a
privacy-mismatched window. -/
theorem c3_onMenuShown_classification
    (tab : Tab) (ws : List Window)
    (hnodup : (ws.map (fun u => u.id)).Nodup) :
    (∀ w ∈ ws, w.id ≠ tab.windowId →
      (tab.incognito = w.incognito →
        (⟨"move-menu", MenuOp.move w.id, w.title⟩ : MenuRequest) ∈
          onMenuShownRequests tab ws)
      ∧ (tab.incognito ≠ w.incognito →
        (⟨"reopen-menu", MenuOp.reopen w.id, w.title⟩ : MenuRequest) ∈
          onMenuShownRequests tab ws)
      ∧ (onMenuShownRequests tab ws).countP
          (fun r => opWindowId r.op == w.id) = 1)
    ∧ (∀ w ∈ ws, w.id = tab.windowId →
        ∀ r ∈ onMenuShownRequests tab ws, opWindowId r.op ≠ w.id)
    ∧ (((onMenuShownUpdates tab ws).getD 0 ("", false)).2 = true ↔
        ∃ w ∈ ws, w.id ≠ tab.windowId ∧ tab.incognito = w.incognito)
    ∧ (((onMenuShownUpdates tab ws).getD 1 ("", false)).2 = true ↔
        ∃ w ∈ ws, w.id ≠ tab.windowId ∧ tab.incognito ≠ w.incognito)
    ∧ "reopen-menu" ∉ startupMenus
    ∧ (∀ w ∈ ws, tab.incognito ≠ w.incognito →
        ∀ r ∈ createdEntries tab ws, opWindowId r.op ≠ w.id) := by
  refine ⟨?_, ?_, ?_, ?_, by decide, ?_⟩
  · intro w hw hne
    exact ⟨fun hinc => List.mem_filterMap.mpr ⟨w, hw, classifyWindow_match hne hinc⟩,
      fun hinc => List.mem_filterMap.mpr ⟨w, hw, classifyWindow_mismatch hne hinc⟩,
      onMenuShownRequests_countP_eq_one tab ws w hw hne hnodup⟩
  · intro w hw hown r hr
    obtain ⟨w2, hw2, hw2r⟩ := List.mem_filterMap.mp hr
    obtain ⟨hop, hne2, _, _⟩ := classifyWindow_sound hw2r
    rw [hop, hown]
    exact hne2
  · show (decide (0 < (onMenuShownRequests tab ws).countP
      (fun r => r.parentId == "move-menu"))) = true ↔ _
    rw [decide_eq_true_eq, List.countP_pos_iff]
    constructor
    · rintro ⟨r, hr, hpr⟩
      obtain ⟨w, hw, hwr⟩ := List.mem_filterMap.mp hr
      obtain ⟨_, hne, _, hcase⟩ := classifyWindow_sound hwr
      rcases hcase with ⟨_, _, hinc⟩ | ⟨hpar, _, _⟩
      · exact ⟨w, hw, hne, hinc⟩
      · rw [hpar] at hpr
        cases hpr
    · rintro ⟨w, hw, hne, hinc⟩
      exact ⟨_, List.mem_filterMap.mpr ⟨w, hw, classifyWindow_match hne hinc⟩, rfl⟩
  · show (decide (0 < (onMenuShownRequests tab ws).countP
      (fun r => r.parentId == "reopen-menu"))) = true ↔ _
    rw [decide_eq_true_eq, List.countP_pos_iff]
    constructor
    · rintro ⟨r, hr, hpr⟩
      obtain ⟨w, hw, hwr⟩ := List.mem_filterMap.mp hr
      obtain ⟨_, hne, _, hcase⟩ := classifyWindow_sound hwr
      rcases hcase with ⟨hpar, _, _⟩ | ⟨_, _, hinc⟩
      · rw [hpar] at hpr
        cases hpr
      · exact ⟨w, hw, hne, hinc⟩
    · rintro ⟨w, hw, hne, hinc⟩
      exact ⟨_, List.mem_filterMap.mpr ⟨w, hw, classifyWindow_mismatch hne hinc⟩, rfl⟩
  · intro w hw hinc r hr hop
    obtain ⟨hreq, hpar⟩ := List.mem_filter.mp hr
    obtain ⟨w2, hw2, hw2r⟩ := List.mem_filterMap.mp hreq
    obtain ⟨hop2, hne2, _, hcase⟩ := classifyWindow_sound hw2r
    have hw2w : w2 = w := by
      have : w2.id = w.id := by rw [← hop2, hop]
      have hmap : (ws.map (fun u => u.id)).Nodup := hnodup
      exact List.inj_on_of_nodup_map hmap hw2 hw this
    subst hw2w
    rcases hcase with ⟨_, _, hinc2⟩ | ⟨hpar2, _, _⟩
    · exact hinc hinc2
    · rw [hpar2] at hpar
      cases hpar

/-- Witness for the amended claim C3: with non-private windows 1 (own) and 3
and private window 2, the build issues a move request bound to window 3 and a
reopen request bound to window 2; the move parent is enabled, and no entry is
actually created for window 2 since its parent does not exist. -/
theorem c3_onMenuShown_classification_witness :
    (⟨"move-menu", MenuOp.move 3, "W3"⟩ : MenuRequest) ∈
      onMenuShownRequests c3tab [c3w1, c3w2, c3w3]
    ∧ (⟨"reopen-menu", MenuOp.reopen 2, "W2"⟩ : MenuRequest) ∈
        onMenuShownRequests c3tab [c3w1, c3w2, c3w3]
    ∧ (((onMenuShownUpdates c3tab [c3w1, c3w2, c3w3]).getD 0 ("", false)).2 = true)
    ∧ (∀ r ∈ createdEntries c3tab [c3w1, c3w2, c3w3], opWindowId r.op ≠ 2) := by
  obtain ⟨hper, hown, hmv, hro, hmiss, hnone⟩ :=
    c3_onMenuShown_classification c3tab [c3w1, c3w2, c3w3] (by decide)
  refine ⟨(hper c3w3 (by decide) (by decide)).1 (by decide),
    (hper c3w2 (by decide) (by decide)).2.1 (by decide),
    hmv.mpr ⟨c3w3, by decide, by decide, by decide⟩,
    ?_⟩
  intro r hr
  exact hnone c3w2 (by decide) (by decide) r hr

/-- Every tracker step either leaves the recency list unchanged or moves the
focused id to the tail by delete-then-append. -/
theorem onFocusChanged_set_shape (host : Int → Option Window) (id : Int)
    (s : List Int) :
    (onFocusChanged host id s).set = s ∨
      (onFocusChanged host id s).set = s.erase id ++ [id] := by
  unfold onFocusChanged
  split
  · exact Or.inl rfl
  · split
    · exact Or.inl rfl
    · split
      · exact Or.inl rfl
      · split
        · split
          · exact Or.inr rfl
          · exact Or.inl rfl
        · exact Or.inl rfl

theorem onFocusChanged_set_nodup (host : Int → Option Window) (id : Int)
    {s : List Int} (hs : s.Nodup) : (onFocusChanged host id s).set.Nodup := by
  rcases onFocusChanged_set_shape host id s with h | h <;> rw [h]
  · exact hs
  · refine List.Nodup.append (hs.erase id) (List.nodup_singleton id) ?_
    intro a ha hb
    simp only [List.mem_singleton] at hb
    subst hb
    exact hs.not_mem_erase ha

theorem runFocusEvents_nodup (host : Int → Option Window) :
    ∀ (ids : List Int) {s : List Int}, s.Nodup →
      (runFocusEvents host ids s).Nodup := by
  intro ids
  induction ids with
  | nil => intro s hs; exact hs
  | cons i ids ih =>
      intro s hs
      exact ih (onFocusChanged_set_nodup host i hs)

/-- Claim C7: a focus-changed event with the none sentinel, an unknown or
non-normal window leaves the recency list unchanged and requests no badge
refresh; so does an event whose id is already the most-recent entry;
otherwise the id is moved to the tail by delete-then-append and a badge
refresh is requested keyed on the previously most-recent entry (read before
the mutation); a qualifying event always leaves its id last, duplicates are
never introduced over any event sequence, and a sequence ending in a
qualifying event leaves that id last. -/
theorem c7_onFocusChanged_recency
    (host : Int → Option Window) (id : Int) (s : List Int) :
    (id = WINDOW_ID_NONE → onFocusChanged host id s = ⟨s, none⟩)
    ∧ (host id = none → onFocusChanged host id s = ⟨s, none⟩)
    ∧ (∀ w, host id = some w → w.wtype ≠ "normal" →
        onFocusChanged host id s = ⟨s, none⟩)
    ∧ (s.getLast? = some id → onFocusChanged host id s = ⟨s, none⟩)
    ∧ (∀ w, host id = some w → w.wtype = "normal" → 0 < id →
        s.getLast? ≠ some id →
        onFocusChanged host id s = ⟨s.erase id ++ [id], some s.getLast?⟩)
    ∧ (∀ w, host id = some w → w.wtype = "normal" → 0 < id →
        (onFocusChanged host id s).set.getLast? = some id)
    ∧ (s.Nodup → ∀ ids, (runFocusEvents host ids s).Nodup)
    ∧ (∀ ids w, host id = some w → w.wtype = "normal" → 0 < id →
        (runFocusEvents host (ids ++ [id]) s).getLast? = some id) := by
  have hnone : id = WINDOW_ID_NONE → onFocusChanged host id s = ⟨s, none⟩ := by
    intro h
    unfold onFocusChanged
    rw [if_pos h]
  have hmiss : host id = none → onFocusChanged host id s = ⟨s, none⟩ := by
    intro h
    unfold onFocusChanged
    split
    · rfl
    · rw [h]
  have habnormal : ∀ w, host id = some w → w.wtype ≠ "normal" →
      onFocusChanged host id s = ⟨s, none⟩ := by
    intro w hw hn
    unfold onFocusChanged
    split
    · rfl
    · rw [hw]
      simp only [if_pos hn]
  have hlast : ∀ (s2 : List Int), s2.getLast? = some id →
      onFocusChanged host id s2 = ⟨s2, none⟩ := by
    intro s2 hl
    unfold onFocusChanged
    split
    · rfl
    · split
      · rfl
      · split
        · rfl
        · split
          · rw [if_neg (by simp [hl])]
          · rfl
  have hact : ∀ (s2 : List Int) w, host id = some w → w.wtype = "normal" →
      0 < id → s2.getLast? ≠ some id →
      onFocusChanged host id s2 = ⟨s2.erase id ++ [id], some s2.getLast?⟩ := by
    intro s2 w hw hn hpos hne
    have h1 : ¬ id = WINDOW_ID_NONE := by
      simp only [WINDOW_ID_NONE]
      omega
    have h2 : ¬ (w.wtype ≠ "normal") := by simp [hn]
    unfold onFocusChanged
    simp only [hw, if_neg h1, if_neg h2, if_pos hpos, if_pos hne]
  have hqual : ∀ (s2 : List Int) w, host id = some w → w.wtype = "normal" →
      0 < id → (onFocusChanged host id s2).set.getLast? = some id := by
    intro s2 w hw hn hpos
    by_cases hne : s2.getLast? ≠ some id
    · rw [hact s2 w hw hn hpos hne]
      exact List.getLast?_concat _
    · rw [hlast s2 (not_not.mp hne)]
      exact not_not.mp hne
  refine ⟨hnone, hmiss, habnormal, hlast s, hact s, hqual s, ?_, ?_⟩
  · intro hs ids
    exact runFocusEvents_nodup host ids hs
  · intro ids w hw hn hpos
    have : runFocusEvents host (ids ++ [id]) s =
        (onFocusChanged host id (runFocusEvents host ids s)).set := by
      unfold runFocusEvents
      rw [List.foldl_append]
      rfl
    rw [this]
    exact hqual _ w hw hn hpos

/-- The window table of the recency witness scenarios: windows 1, 2, 3 are
live normal windows. -/
def c7host : Int → Option Window :=
  fun i => if 0 < i ∧ i ≤ 3 then some ⟨i, false, "normal", "", []⟩ else none

/-- Witness for claim C7: from recency list [1, 2], focusing window 3 moves 3
to the tail with a badge request keyed on the previous most-recent entry 2,
and re-focusing the current most-recent entry is a no-op. -/
theorem c7_onFocusChanged_recency_witness :
    onFocusChanged c7host 3 [1, 2] = ⟨[1, 2, 3], some (some 2)⟩
    ∧ onFocusChanged c7host 2 [1, 2] = ⟨[1, 2], none⟩
    ∧ (runFocusEvents c7host [3, 1, 3, 2] [1, 2]).Nodup
    ∧ (runFocusEvents c7host ([3, 1] ++ [2]) [1, 2]).getLast? = some 2 := by
  obtain ⟨h1, h2, h3, h4, h5, h6, h7, h8⟩ := c7_onFocusChanged_recency c7host 3 [1, 2]
  obtain ⟨g1, g2, g3, g4, g5, g6, g7, g8⟩ := c7_onFocusChanged_recency c7host 2 [1, 2]
  refine ⟨?_, g4 (by decide), h7 (by decide) [3, 1, 3, 2], ?_⟩
  · rw [h5 ⟨3, false, "normal", "", []⟩ (by decide) rfl (by decide) (by decide)]
    decide
  · exact g8 [3, 1] ⟨2, false, "normal", "", []⟩ (by decide) rfl (by decide)

/-- Claim C8: a window-removed event requests a badge refresh keyed on the
head (least-recent) entry of the recency list as it was before the removal,
and then deletes the id wherever it sits: the id is absent afterwards and the
relative order of the remaining entries is unchanged (the result is a
sublist, and membership of every other id is preserved). -/
theorem c8_onRemoved_badge_then_delete (id : Int) (s : List Int)
    (hs : s.Nodup) :
    (onRemoved id s).badgeRequest = some s.head?
    ∧ (onRemoved id s).set = s.erase id
    ∧ id ∉ (onRemoved id s).set
    ∧ (onRemoved id s).set.Sublist s
    ∧ (∀ a, a ≠ id → (a ∈ (onRemoved id s).set ↔ a ∈ s)) := by
  refine ⟨rfl, rfl, hs.not_mem_erase, List.erase_sublist id s, ?_⟩
  intro a ha
  exact List.mem_erase_of_ne ha

/-- Witness for claim C8: removing window 2 from [2, 1, 3] requests a badge
refresh keyed on the pre-removal head 2 and yields [1, 3] with 2 absent. -/
theorem c8_onRemoved_badge_then_delete_witness :
    (onRemoved 2 [2, 1, 3]).badgeRequest = some (some 2)
    ∧ (onRemoved 2 [2, 1, 3]).set = [1, 3]
    ∧ 2 ∉ (onRemoved 2 [2, 1, 3]).set := by
  obtain ⟨h1, h2, h3, h4, h5⟩ := c8_onRemoved_badge_then_delete 2 [2, 1, 3] (by decide)
  exact ⟨h1, by rw [h2]; decide, h3⟩

/-- The forced-switch flag of onClicked equals: Shift held or middle button. -/
theorem clickForce_eq (modifiers : List String) (button : Nat) :
    (if modifiers.length > 0 && modifiers.contains "Shift" then true
      else if button == 1 then true else false) =
      (modifiers.contains "Shift" || button == 1) := by
  cases hc : modifiers.contains "Shift"
  · simp only [hc, Bool.and_false, if_false, Bool.false_or]
    cases button == 1 <;> simp
  · have hlen : modifiers.length > 0 := by
      cases modifiers with
      | nil => simp [List.contains] at hc
      | cons a l => simp
    simp [hc, hlen]

/-- The window loop of onClicked issues the move for the first enumerated
window other than the invoking tab's own. -/
theorem clickLoop_first_other (tab : Tab) (stl : Option Int) (force : Bool) :
    ∀ (ws : List Window) (s : List Int) (w : Window),
      ws.find? (fun u => !(u.id == tab.windowId)) = some w →
      (clickLoop tab stl force s ws).1 =
        some ⟨some (match stl with
          | some v => if v > 0 then v else w.id
          | none => w.id), force⟩ := by
  intro ws
  induction ws with
  | nil => intro s w h; cases h
  | cons u ws ih =>
      intro s w h
      rw [List.find?_cons] at h
      unfold clickLoop
      by_cases hu : u.id = tab.windowId
      · have hb : (!(u.id == tab.windowId)) = false := by simp [hu]
        simp only [hb] at h
        rw [if_pos (by simp [hu])]
        exact ih _ w h
      · have hb : (!(u.id == tab.windowId)) = true := by simp [hu]
        simp only [hb] at h
        rw [if_neg (by simp [hu])]
        injection h with h
        subst h
        rfl

/-- Claim C9, counterexample: with recency list [5] (no second-to-last entry)
and live normal windows 5 (own) and 7, a toolbar click falls back to window 7
but the move-tabs keyboard command issues no move at all — it has no fallback
to the first other live window; moreover with a single window a shift-click
resolves to a new window without forcing the switch flag. -/
theorem c9_command_no_fallback_cex :
    commandMoveTabs (some c9tab) [5] = none
    ∧ (onClicked [c9own, c9other] c9tab [5] 0 []).1 =
        some ⟨some 7, false⟩
    ∧ (onClicked [c9own] c9tab [5] 0 ["Shift"]).1 = some ⟨none, false⟩ := by
  refine ⟨rfl, by decide, by decide⟩

/-- Claim C9 (amended): when at least two normal windows are enumerated, a
toolbar click targets the second-to-last recency entry whenever it is
positive and otherwise the first enumerated window other than the invoking
tab's own, with Shift or the middle button forcing the switch flag; with a
single enumerated window the click targets a new window without forcing the
flag; the move-tabs command moves only when the second-to-last entry is
positive, targeting it without forcing the flag, and otherwise does nothing. -/
theorem c9_dispatch_target_resolution
    (ws : List Window) (tab : Tab) (s : List Int) (button : Nat)
    (modifiers : List String) (w : Window)
    (hlen : ws.length ≠ 1)
    (hfirst : ws.find? (fun u => !(u.id == tab.windowId)) = some w) :
    (∀ v, secondToLast s = some v → 0 < v →
        (onClicked ws tab s button modifiers).1 = some ⟨some v,
          modifiers.contains "Shift" || button == 1⟩)
    ∧ (∀ v, secondToLast s = some v → ¬ 0 < v →
        (onClicked ws tab s button modifiers).1 = some ⟨some w.id,
          modifiers.contains "Shift" || button == 1⟩)
    ∧ (secondToLast s = none →
        (onClicked ws tab s button modifiers).1 = some ⟨some w.id,
          modifiers.contains "Shift" || button == 1⟩)
    ∧ (∀ (ws1 : List Window) (t1 : Tab) (s1 : List Int) (b1 : Nat)
        (m1 : List String), ws1.length = 1 →
        (onClicked ws1 t1 s1 b1 m1).1 = some ⟨none, false⟩)
    ∧ (∀ t1 v, secondToLast s = some v → 0 < v →
        commandMoveTabs (some t1) s = some ⟨some v, false⟩)
    ∧ (∀ t1 v, secondToLast s = some v → ¬ 0 < v →
        commandMoveTabs (some t1) s = none)
    ∧ (∀ t1, secondToLast s = none → commandMoveTabs (some t1) s = none)
    ∧ commandMoveTabs none s = none := by
  have hloop : (onClicked ws tab s button modifiers).1 =
      some ⟨some (match secondToLast s with
        | some v => if v > 0 then v else w.id
        | none => w.id), modifiers.contains "Shift" || button == 1⟩ := by
    unfold onClicked
    rw [if_neg (by simp [hlen])]
    rw [show (if modifiers.length > 0 && modifiers.contains "Shift" then true
        else if button == 1 then true else false) =
        (modifiers.contains "Shift" || button == 1) from clickForce_eq _ _]
    exact clickLoop_first_other tab (secondToLast s)
      (modifiers.contains "Shift" || button == 1) ws s w hfirst
  refine ⟨?_, ?_, ?_, ?_, ?_, ?_, ?_, rfl⟩
  · intro v hv hpos
    rw [hloop, hv]
    simp [hpos]
  · intro v hv hpos
    rw [hloop, hv]
    simp only []
    rw [if_neg (by omega)]
  · intro hv
    rw [hloop, hv]
  · intro ws1 t1 s1 b1 m1 h1
    unfold onClicked
    rw [if_pos (by simp [h1])]
  · intro t1 v hv hpos
    unfold commandMoveTabs
    rw [hv]
    dsimp only
    rw [if_pos (by omega)]
  · intro t1 v hv hpos
    unfold commandMoveTabs
    rw [hv]
    dsimp only
    rw [if_neg (by omega)]
  · intro t1 hv
    unfold commandMoveTabs
    rw [hv]

/-- Witness for the amended claim C9: with recency [3, 5], a shift-click from
window 5 moves to window 3 with the switch flag forced, and the move-tabs
command also targets window 3 without the flag. -/
theorem c9_dispatch_target_resolution_witness :
    (onClicked [c9own, c9other] c9tab [3, 5] 0 ["Shift"]).1 =
      some ⟨some 3, true⟩
    ∧ commandMoveTabs (some c9tab) [3, 5] = some ⟨some 3, false⟩ := by
  obtain ⟨hA, hB, hC, hD, hE, hF, hG, hH⟩ :=
    c9_dispatch_target_resolution [c9own, c9other] c9tab [3, 5] 0 ["Shift"]
      c9other (by decide) (by decide)
  refine ⟨?_, hE c9tab 3 rfl (by decide)⟩
  rw [hA 3 rfl (by decide)]
  rfl

/-- Claim C10: the sort-selected-tabs command is a no-op unless strictly more
than two tabs are highlighted; when it acts it stably orders the highlighted
tabs by case-insensitive title, moving them as one contiguous block whose
start index is the pre-sort tab index of the alphabetically first highlighted
tab. -/
theorem c10_sortSelectedTabs_spec (tabs : List Tab) :
    (tabs.length ≤ 2 → sortSelectedTabs tabs = none)
    ∧ (2 < tabs.length →
        ∃ h rest, sortSelectedTabs tabs =
            some ((h :: rest).map (fun t => t.id), h.index)
          ∧ (h :: rest).Perm tabs
          ∧ List.Sorted titleLe (h :: rest)
          ∧ h ∈ tabs
          ∧ ∀ t ∈ tabs, titleKey h ≤ titleKey t) := by
  constructor
  · intro hle
    unfold sortSelectedTabs
    rw [if_neg (by omega)]
  · intro hgt
    have hlen : (tabs.insertionSort titleLe).length = tabs.length :=
      (List.perm_insertionSort titleLe tabs).length_eq
    cases hsort : tabs.insertionSort titleLe with
    | nil => rw [hsort] at hlen; simp at hlen; omega
    | cons h rest =>
        have hperm : (h :: rest).Perm tabs := hsort ▸
          List.perm_insertionSort titleLe tabs
        have hsorted : List.Sorted titleLe (h :: rest) := hsort ▸
          List.sorted_insertionSort titleLe tabs
        refine ⟨h, rest, ?_, hperm, hsorted, ?_, ?_⟩
        · unfold sortSelectedTabs
          rw [if_pos hgt]
          simp only [hsort]
          rfl
        · exact hperm.mem_iff.mp (List.mem_cons_self h rest)
        · intro t ht
          have : t ∈ h :: rest := hperm.mem_iff.mpr ht
          rcases List.mem_cons.mp this with h2 | h2
          · subst h2; exact le_refl _
          · exact (List.sorted_cons.mp hsorted).1 t h2

/-- Witness for claim C10: two highlighted tabs are a no-op, and with tabs
titled Zebra, apple, Mango the sort acts (the code moves [2, 3, 1] to start
index 7, the pre-sort index of the tab titled apple). -/
theorem c10_sortSelectedTabs_spec_witness :
    sortSelectedTabs [c10tabZ, c10tabA] = none
    ∧ (sortSelectedTabs [c10tabZ, c10tabA, c10tabM]).isSome = true
    ∧ sortSelectedTabs [c10tabZ, c10tabA, c10tabM] = some ([2, 3, 1], 7) := by
  refine ⟨(c10_sortSelectedTabs_spec [c10tabZ, c10tabA]).1 (by decide), ?_, by decide⟩
  obtain ⟨h, rest, heq, _⟩ :=
    (c10_sortSelectedTabs_spec [c10tabZ, c10tabA, c10tabM]).2 (by decide)
  rw [heq]
  rfl

end TabMover
